import Mathlib

/-!
Verification development for the `var77/llama_index` example-notebook
repository.  The provided files are three Jupyter notebooks
(`redis_ingestion_pipeline.ipynb`, `query_transform_cookbook.ipynb`,
`CognitiveSearchIndexDemo.ipynb`).  The only executable code defined in the
repository itself is a handful of small Python functions inside
`query_transform_cookbook.ipynb`; those are embedded directly below.  All
library machinery the notebooks call (ingestion pipeline, directory reader,
selectors, question generators) lives outside the provided files, so it is
modelled from the specification where a claim needs it.
-/

namespace LlamaNb

/-! ## Python string `split` / `join` on the newline character

`generate_queries` in `query_transform_cookbook.ipynb` runs
`response.split("\n")` and `"\n".join(queries)`.  We embed Python semantics
of `str.split` with a one-character separator and `str.join` on lists of
character lists, and lift them to `String`. -/

/-- Python `s.split("\n")` on a character list: splitting the empty list
yields `[[]]`, and every newline character starts a new segment. -/
def splitNlChars : List Char → List (List Char)
  | [] => [[]]
  | ch :: rest =>
    if ch = '\n' then [] :: splitNlChars rest
    else
      match splitNlChars rest with
      | [] => [[ch]]
      | seg :: segs => (ch :: seg) :: segs

/-- Python `"\n".join(xs)` on character lists: interleave a newline between
consecutive segments. -/
def joinNlChars : List (List Char) → List Char
  | [] => []
  | [seg] => seg
  | seg :: seg2 :: segs => seg ++ '\n' :: joinNlChars (seg2 :: segs)

/-- `splitNlChars` never returns the empty list of segments. -/
theorem splitNlChars_ne_nil (l : List Char) : splitNlChars l ≠ [] := by
  induction l with
  | nil => simp [splitNlChars]
  | cons ch rest ih =>
    by_cases h : ch = '\n'
    · simp [splitNlChars, h]
    · simp only [splitNlChars, if_neg h]
      cases hrec : splitNlChars rest with
      | nil => simp
      | cons seg segs => simp

/-- Joining the split reconstructs the original character list. -/
theorem joinNlChars_splitNlChars (l : List Char) :
    joinNlChars (splitNlChars l) = l := by
  induction l with
  | nil => simp [splitNlChars, joinNlChars]
  | cons ch rest ih =>
    by_cases h : ch = '\n'
    · subst h
      simp only [splitNlChars, if_pos rfl]
      cases hrec : splitNlChars rest with
      | nil => exact absurd hrec (splitNlChars_ne_nil rest)
      | cons seg segs =>
        rw [hrec] at ih
        simp [joinNlChars, ih]
    · simp only [splitNlChars, if_neg h]
      cases hrec : splitNlChars rest with
      | nil => exact absurd hrec (splitNlChars_ne_nil rest)
      | cons seg segs =>
        rw [hrec] at ih
        cases segs with
        | nil => simp_all [joinNlChars]
        | cons seg2 segs' => simp_all [joinNlChars]

/-- The number of segments is one more than the number of newlines. -/
theorem length_splitNlChars (l : List Char) :
    (splitNlChars l).length = l.count '\n' + 1 := by
  induction l with
  | nil => simp [splitNlChars]
  | cons ch rest ih =>
    by_cases h : ch = '\n'
    · subst h
      simp [splitNlChars, ih, List.count_cons]
    · simp only [splitNlChars, if_neg h]
      cases hrec : splitNlChars rest with
      | nil => exact absurd hrec (splitNlChars_ne_nil rest)
      | cons seg segs =>
        rw [hrec] at ih
        simp_all [List.count_cons]

/-- Python `response.split("\n")` lifted to `String`. -/
def pySplitNl (s : String) : List String :=
  (splitNlChars s.data).map fun cs => ⟨cs⟩

/-- Python `"\n".join(xs)` lifted to `String`. -/
def pyJoinNl (xs : List String) : String :=
  ⟨joinNlChars (xs.map String.data)⟩

theorem pyJoinNl_pySplitNl (s : String) : pyJoinNl (pySplitNl s) = s := by
  cases s with
  | mk data =>
    have hmap : (String.data ∘ fun cs => (⟨cs⟩ : String)) = id := rfl
    simp only [pyJoinNl, pySplitNl, List.map_map, hmap, List.map_id,
      joinNlChars_splitNlChars]

theorem pySplitNl_ne_nil (s : String) : pySplitNl s ≠ [] := by
  simp [pySplitNl]
  exact splitNlChars_ne_nil s.data

theorem length_pySplitNl (s : String) :
    (pySplitNl s).length = s.data.count '\n' + 1 := by
  simp [pySplitNl, length_splitNlChars]

/-! ## Local functions defined in `query_transform_cookbook.ipynb` -/

/-- From the source: `def add(a: int, b: int) -> int: return a + b`. -/
def add (a b : Int) : Int := a + b

/-- From the source:
`def execute_sql(sql: str) -> str: return f"Executed {sql}"`
(a mock function, per its own comment). -/
def execute_sql (sql : String) : String := "Executed " ++ sql

/-- From the source: `generate_queries(query, llm, num_queries=4)` calls
`llm.predict(query_gen_prompt, num_queries=num_queries, query=query)` and
returns `response.split("\n")`.  The external LLM call is abstracted as a
function from the prompt parameters (`num_queries`, `query`) to the
response string. -/
def generate_queries (llmPredict : Nat → String → String) (query : String)
    (num_queries : Nat) : List String :=
  pySplitNl (llmPredict num_queries query)

/-- From the source: the string `queries_str = "\n".join(queries)` that
`generate_queries` prints. -/
def generate_queries_printed (llmPredict : Nat → String → String)
    (query : String) (num_queries : Nat) : String :=
  pyJoinNl (generate_queries llmPredict query num_queries)

/-! ## Spec-modelled ingestion pipeline

The `IngestionPipeline` class, the Redis-backed document store, cache and
vector store, and `SimpleDirectoryReader` are not part of the provided
files; only their call sites appear in `redis_ingestion_pipeline.ipynb`.
They are modelled here from the specification: "An ingestion pipeline that
transforms, embeds, deduplicates, and upserts nodes according to a
configurable strategy", "A document loader that reads files from a
directory and assigns deterministic identifiers", and the behaviour the
spec describes for the `UPSERTS` strategy (unmodified content is neither
re-embedded nor duplicated; modified content replaces its prior entry). -/

/-- Modelled from the spec: a source document as produced by the external
document loader, with a deterministic identifier and its text content. -/
structure Document where
  id : String
  content : String
deriving DecidableEq

/-- Modelled from the spec: a node (chunk of a source document) produced by
the transformation stage, carrying the identifier of the document it was
derived from, its chunk text, and its embedding. -/
structure Node where
  ref_doc_id : String
  text : String
  embedding : Int
deriving DecidableEq

/-- Association-list lookup keyed by strings (models a key-value store). -/
def alookup {β : Type} : List (String × β) → String → Option β
  | [], _ => none
  | (k, v) :: rest, key => if k = key then some v else alookup rest key

/-- Association-list upsert keyed by strings: overwrite the existing entry
for the key, or append a fresh one. -/
def aupsert {β : Type} : List (String × β) → String → β → List (String × β)
  | [], key, val => [(key, val)]
  | (k, v) :: rest, key, val =>
    if k = key then (k, val) :: rest else (k, v) :: aupsert rest key val

/-- Modelled from the spec: the state held by the external Redis-backed
stores.  `docstore` maps a document identifier to the hash of the content
last ingested under it (the hash is modelled as the content itself, i.e. a
perfect hash); `cache` maps transformation input to the produced nodes;
`vectorStore` holds the indexed nodes with their embeddings. -/
structure PipelineState where
  docstore : List (String × String)
  cache : List (String × List Node)
  vectorStore : List Node
deriving DecidableEq

/-- The empty initial state of the stores. -/
def emptyState : PipelineState := ⟨[], [], []⟩

/-- Modelled from the spec: the transformation stage (text splitter followed
by embedding model) applied to one document.  `chunk` is the splitter,
`embed` the embedding model; both are external and kept abstract. -/
def mkNodes (chunk : String → List String) (embed : String → Int)
    (d : Document) : List Node :=
  (chunk d.content).map fun t => ⟨d.id, t, embed t⟩

/-- Modelled from the spec: how the pipeline under the `UPSERTS` docstore
strategy handles a single input document.  If the docstore already holds
the document's identifier with an unchanged content hash, the document is
skipped entirely (not re-transformed, not re-embedded, stores untouched).
Otherwise the document's hash is upserted into the docstore, the
transformation output is recorded in the cache, any nodes previously
indexed under the document's identifier are deleted from the vector store,
and the freshly produced nodes are added. -/
def processDoc (chunk : String → List String) (embed : String → Int)
    (st : PipelineState) (d : Document) : List Node × PipelineState :=
  if alookup st.docstore d.id = some d.content then ([], st)
  else
    let ns := mkNodes chunk embed d
    (ns, ⟨aupsert st.docstore d.id d.content,
          aupsert st.cache d.content ns,
          st.vectorStore.filter (fun n => n.ref_doc_id != d.id) ++ ns⟩)

/-- Modelled from the spec: `pipeline.run(documents=...)` with
`DocstoreStrategy.UPSERTS`, a docstore, a cache and a vector store
attached.  Documents are deduplicated and upserted in order; the call
returns the list of nodes actually produced in this run together with the
resulting store state. -/
def runUpserts (chunk : String → List String) (embed : String → Int) :
    PipelineState → List Document → List Node × PipelineState
  | st, [] => ([], st)
  | st, d :: ds =>
    ((processDoc chunk embed st d).1 ++
       (runUpserts chunk embed (processDoc chunk embed st d).2 ds).1,
     (runUpserts chunk embed (processDoc chunk embed st d).2 ds).2)

/-! ### Store lemmas -/

theorem alookup_aupsert {β : Type} (m : List (String × β)) (k key : String)
    (v : β) :
    alookup (aupsert m k v) key = if k = key then some v else alookup m key := by
  induction m with
  | nil => simp [aupsert, alookup]
  | cons kv rest ih =>
    obtain ⟨k0, v0⟩ := kv
    by_cases h0 : k0 = k
    · subst h0
      by_cases hk : k0 = key
      · subst hk
        simp [aupsert, alookup]
      · simp [aupsert, alookup, hk]
    · by_cases hk : k0 = key
      · subst hk
        have hne : ¬ k = k0 := fun h => h0 h.symm
        simp [aupsert, alookup, h0, hne]
      · simp [aupsert, alookup, h0, hk, ih]

theorem alookup_aupsert_self {β : Type} (m : List (String × β)) (k : String)
    (v : β) : alookup (aupsert m k v) k = some v := by
  simp [alookup_aupsert]

theorem alookup_aupsert_ne {β : Type} (m : List (String × β)) (k key : String)
    (v : β) (h : k ≠ key) : alookup (aupsert m k v) key = alookup m key := by
  simp [alookup_aupsert, h]

/-! ### Node lemmas -/

theorem mkNodes_ref (chunk : String → List String) (embed : String → Int)
    (d : Document) : ∀ n ∈ mkNodes chunk embed d, n.ref_doc_id = d.id := by
  intro n hn
  simp only [mkNodes, List.mem_map] at hn
  obtain ⟨t, _, rfl⟩ := hn
  rfl

theorem filter_keep_mkNodes (chunk : String → List String)
    (embed : String → Int) (d : Document) :
    (mkNodes chunk embed d).filter (fun n => n.ref_doc_id == d.id) =
      mkNodes chunk embed d := by
  rw [List.filter_eq_self]
  intro n hn
  simp [mkNodes_ref chunk embed d n hn]

theorem filter_drop_mkNodes (chunk : String → List String)
    (embed : String → Int) (d : Document) (i : String) (h : d.id ≠ i) :
    (mkNodes chunk embed d).filter (fun n => n.ref_doc_id == i) = [] := by
  rw [List.filter_eq_nil_iff]
  intro n hn
  simp [mkNodes_ref chunk embed d n hn, h]

/-- Deleting all nodes of one document then keeping the nodes of another
document commutes to just keeping, when the identifiers differ. -/
theorem filter_keep_after_del (l : List Node) (i j : String) (h : i ≠ j) :
    (l.filter (fun n => n.ref_doc_id != j)).filter
        (fun n => n.ref_doc_id == i) =
      l.filter (fun n => n.ref_doc_id == i) := by
  rw [List.filter_filter]
  apply List.filter_congr
  intro n _
  by_cases hn : n.ref_doc_id = i
  · have hj : n.ref_doc_id ≠ j := by rw [hn]; exact h
    simp [hn, hj, h]
  · simp [hn]

/-- Keeping a document's nodes right after deleting them yields nothing. -/
theorem filter_keep_after_del_self (l : List Node) (i : String) :
    (l.filter (fun n => n.ref_doc_id != i)).filter
        (fun n => n.ref_doc_id == i) = [] := by
  rw [List.filter_eq_nil_iff]
  intro n hn
  rw [List.mem_filter] at hn
  simpa using hn.2

/-! ### `processDoc` case lemmas -/

theorem processDoc_skip (chunk : String → List String) (embed : String → Int)
    (st : PipelineState) (d : Document)
    (h : alookup st.docstore d.id = some d.content) :
    processDoc chunk embed st d = ([], st) := by
  simp [processDoc, h]

theorem processDoc_go (chunk : String → List String) (embed : String → Int)
    (st : PipelineState) (d : Document)
    (h : ¬ alookup st.docstore d.id = some d.content) :
    processDoc chunk embed st d =
      (mkNodes chunk embed d,
       ⟨aupsert st.docstore d.id d.content,
        aupsert st.cache d.content (mkNodes chunk embed d),
        st.vectorStore.filter (fun n => n.ref_doc_id != d.id) ++
          mkNodes chunk embed d⟩) := by
  simp [processDoc, h]

/-! ### Run lemmas -/

/-- If every document of the batch is already stored with an unchanged
hash, the run produces no nodes and leaves every store untouched. -/
theorem runUpserts_skip_all (chunk : String → List String)
    (embed : String → Int) :
    ∀ (docs : List Document) (st : PipelineState),
      (∀ d ∈ docs, alookup st.docstore d.id = some d.content) →
      runUpserts chunk embed st docs = ([], st) := by
  intro docs
  induction docs with
  | nil => intro st _; rfl
  | cons d ds ih =>
    intro st h
    have hd := h d (List.mem_cons_self d ds)
    have hskip := processDoc_skip chunk embed st d hd
    have hds : ∀ d' ∈ ds, alookup st.docstore d'.id = some d'.content :=
      fun d' hd' => h d' (List.mem_cons_of_mem d hd')
    simp [runUpserts, hskip, ih st hds]

/-- Frame lemma: if the docstore holds `cnt` under identifier `i` and every
batch document carrying identifier `i` has content `cnt`, then a run
produces no node referring to `i`, leaves the vector-store nodes referring
to `i` untouched, and keeps the docstore entry at `i` equal to `some cnt`. -/
theorem runUpserts_frame (chunk : String → List String)
    (embed : String → Int) (i cnt : String) :
    ∀ (docs : List Document) (st : PipelineState),
      alookup st.docstore i = some cnt →
      (∀ d ∈ docs, d.id = i → d.content = cnt) →
      (runUpserts chunk embed st docs).1.filter
          (fun n => n.ref_doc_id == i) = [] ∧
      (runUpserts chunk embed st docs).2.vectorStore.filter
          (fun n => n.ref_doc_id == i) =
        st.vectorStore.filter (fun n => n.ref_doc_id == i) ∧
      alookup (runUpserts chunk embed st docs).2.docstore i = some cnt := by
  intro docs
  induction docs with
  | nil => intro st h0 _; exact ⟨rfl, rfl, h0⟩
  | cons d ds ih =>
    intro st h0 hu
    by_cases hskip : alookup st.docstore d.id = some d.content
    · have hp := processDoc_skip chunk embed st d hskip
      have hds : ∀ d' ∈ ds, d'.id = i → d'.content = cnt :=
        fun d' hd' => hu d' (List.mem_cons_of_mem d hd')
      have := ih st h0 hds
      simpa [runUpserts, hp] using this
    · have hdi : d.id ≠ i := by
        intro hdi
        apply hskip
        rw [hdi, h0, hu d (List.mem_cons_self d ds) hdi]
      have hp := processDoc_go chunk embed st d hskip
      set st1 : PipelineState :=
        ⟨aupsert st.docstore d.id d.content,
         aupsert st.cache d.content (mkNodes chunk embed d),
         st.vectorStore.filter (fun n => n.ref_doc_id != d.id) ++
           mkNodes chunk embed d⟩ with hst1
      have h1 : alookup st1.docstore i = some cnt := by
        rw [hst1]
        simpa [alookup_aupsert_ne _ _ _ _ hdi] using h0
      have hvs1 : st1.vectorStore.filter (fun n => n.ref_doc_id == i) =
          st.vectorStore.filter (fun n => n.ref_doc_id == i) := by
        rw [hst1]
        simp only [List.filter_append]
        rw [filter_keep_after_del _ _ _ (fun h => hdi h.symm),
          filter_drop_mkNodes chunk embed d i hdi, List.append_nil]
      have hds : ∀ d' ∈ ds, d'.id = i → d'.content = cnt :=
        fun d' hd' => hu d' (List.mem_cons_of_mem d hd')
      obtain ⟨ho, hv, hl⟩ := ih st1 h1 hds
      refine ⟨?_, ?_, ?_⟩
      · simp only [runUpserts, hp, List.filter_append]
        rw [filter_drop_mkNodes chunk embed d i hdi]
        simpa using ho
      · simp only [runUpserts, hp]
        rw [hv, hvs1]
      · simp only [runUpserts, hp]
        exact hl

/-- After a run containing a document with identifier `i`, provided every
batch document with identifier `i` carries content `cnt`, the docstore ends
up holding `cnt` under `i`. -/
theorem runUpserts_sets_entry (chunk : String → List String)
    (embed : String → Int) (i cnt : String) :
    ∀ (docs : List Document) (st : PipelineState),
      (∀ d ∈ docs, d.id = i → d.content = cnt) →
      (∃ d ∈ docs, d.id = i) →
      alookup (runUpserts chunk embed st docs).2.docstore i = some cnt := by
  intro docs
  induction docs with
  | nil => intro st _ hmem; simp at hmem
  | cons d ds ih =>
    intro st hu hmem
    have hds : ∀ d' ∈ ds, d'.id = i → d'.content = cnt :=
      fun d' hd' => hu d' (List.mem_cons_of_mem d hd')
    by_cases hdi : d.id = i
    · have hcnt : d.content = cnt := hu d (List.mem_cons_self d ds) hdi
      by_cases hskip : alookup st.docstore d.id = some d.content
      · have hp := processDoc_skip chunk embed st d hskip
        have h0 : alookup st.docstore i = some cnt := by
          rw [← hdi, hskip, hcnt]
        have := (runUpserts_frame chunk embed i cnt ds st h0 hds).2.2
        simpa [runUpserts, hp] using this
      · have hp := processDoc_go chunk embed st d hskip
        set st1 : PipelineState :=
          ⟨aupsert st.docstore d.id d.content,
           aupsert st.cache d.content (mkNodes chunk embed d),
           st.vectorStore.filter (fun n => n.ref_doc_id != d.id) ++
             mkNodes chunk embed d⟩ with hst1
        have h1 : alookup st1.docstore i = some cnt := by
          rw [hst1, ← hdi, ← hcnt]
          exact alookup_aupsert_self _ _ _
        have := (runUpserts_frame chunk embed i cnt ds st1 h1 hds).2.2
        simpa [runUpserts, hp] using this
    · obtain ⟨d0, hd0, hd0i⟩ := hmem
      have hd0ds : d0 ∈ ds := by
        rcases List.mem_cons.mp hd0 with h | h
        · exact absurd (h ▸ hd0i) hdi
        · exact h
      simp only [runUpserts]
      exact ih _ hds ⟨d0, hd0ds, hd0i⟩

/-- A splitter producing a single chunk per document (the behaviour observed
in the notebook, whose files are single short sentences). -/
def oneChunk (s : String) : List String := [s]

/-- A concrete stand-in embedding model, used only to instantiate witnesses. -/
def zeroEmbed (_ : String) : Int := 0

/-! ## Spec-modelled document loader

`SimpleDirectoryReader("./dir", filename_as_id=True).load_data()` is
external; only its call sites appear in the notebook. -/

/-- Modelled from the spec: "A document loader that reads files from a
directory and assigns deterministic identifiers."  The directory is
modelled as a list of (filename, content) pairs; with `filename_as_id`
each document's identifier is the directory path joined with its filename,
a pure function of the filename alone. -/
def loadData (dirPath : String) (files : List (String × String)) :
    List Document :=
  files.map fun fc => ⟨dirPath ++ "/" ++ fc.1, fc.2⟩

theorem loadData_ids (dirPath : String) (files : List (String × String)) :
    (loadData dirPath files).map Document.id =
      (files.map Prod.fst).map (fun name => dirPath ++ "/" ++ name) := by
  simp [loadData, List.map_map]

/-! ## Spec-modelled selector and question generator

The selectors (`LLMMultiSelector`, ...), the question generator
(`OpenAIQuestionGenerator`) and their output parsers are external; only
their call sites appear in `query_transform_cookbook.ipynb`.  They are
modelled from the spec: "A family of selectors, question generators, and
output parsers that route or decompose natural-language queries against
named tools", together with the contract shown by the selector prompt in
the notebook: the LLM must answer with a numbered list of choices (1-based,
out of `n` supplied tools, no more than `max_outputs` of them), which the
output parser validates and converts to 0-based selections. -/

/-- Modelled from the spec: the metadata of a named tool
(`ToolMetadata(name=..., description=...)`). -/
structure ToolMetadata where
  name : String
  description : String
deriving DecidableEq

/-- Modelled from the spec: one selection returned by a selector
(`SingleSelection(index=..., reason=...)`), with a 0-based index into the
supplied tool list. -/
structure SingleSelection where
  index : Nat
  reason : String
deriving DecidableEq

/-- Modelled from the spec: the result object of `selector.select`, holding
the list of selections. -/
structure SelectorResult where
  selections : List SingleSelection
deriving DecidableEq

/-- Modelled from the spec: a sub-question produced by the question
generator (`SubQuestion(sub_question=..., tool_name=...)`). -/
structure SubQuestion where
  sub_question : String
  tool_name : String
deriving DecidableEq

/-- Modelled from the spec: the selector's output parser.  The raw LLM
answer is abstracted as a list of (1-based choice, reason) pairs; a choice
outside `1..n` is a parse error, and a valid choice `c` becomes the 0-based
index `c - 1`. -/
def parseSelections (n : Nat) : List (Nat × String) → Except String (List SingleSelection)
  | [] => .ok []
  | (c, r) :: rest =>
    if 1 ≤ c ∧ c ≤ n then
      match parseSelections n rest with
      | .ok sels => .ok (⟨c - 1, r⟩ :: sels)
      | .error e => .error e
    else .error "choice out of range"

/-- Modelled from the spec: `selector.select(tool_choices, query)` for a
multi-selector with a `max_outputs` limit.  The LLM call is abstracted as
its raw answer `raw`; an answer with more entries than `max_outputs`
violates the prompt contract and is rejected, otherwise the answer is
parsed against the number of supplied tools. -/
def selectTools (tools : List ToolMetadata) (maxOutputs : Nat)
    (raw : List (Nat × String)) : Except String SelectorResult :=
  if raw.length > maxOutputs then .error "too many selections"
  else
    match parseSelections tools.length raw with
    | .ok sels => .ok ⟨sels⟩
    | .error e => .error e

/-- Modelled from the spec: `question_gen.generate(tool_choices, query)`.
The LLM call is abstracted as its raw answer, a list of
(sub-question text, tool name) pairs; a tool name that is not among the
supplied tools is a parse error. -/
def generateSubQuestions (tools : List ToolMetadata)
    (raw : List (String × String)) : Except String (List SubQuestion)
  := match raw with
  | [] => .ok []
  | (q, t) :: rest =>
    if t ∈ tools.map ToolMetadata.name then
      match generateSubQuestions tools rest with
      | .ok qs => .ok (⟨q, t⟩ :: qs)
      | .error e => .error e
    else .error "unknown tool name"

theorem parseSelections_ok (n : Nat) :
    ∀ (raw : List (Nat × String)) (sels : List SingleSelection),
      parseSelections n raw = .ok sels →
      sels.length = raw.length ∧ ∀ s ∈ sels, s.index < n := by
  intro raw
  induction raw with
  | nil =>
    intro sels h
    simp only [parseSelections] at h
    cases h
    simp
  | cons cr rest ih =>
    intro sels h
    obtain ⟨c, r⟩ := cr
    simp only [parseSelections] at h
    by_cases hc : 1 ≤ c ∧ c ≤ n
    · rw [if_pos hc] at h
      cases hrec : parseSelections n rest with
      | ok sels0 =>
        rw [hrec] at h
        cases h
        obtain ⟨hlen, hmem⟩ := ih sels0 hrec
        refine ⟨by simp [hlen], ?_⟩
        intro s hs
        rcases List.mem_cons.mp hs with h | h
        · subst h
          simp only
          omega
        · exact hmem s h
      | error e => rw [hrec] at h; cases h
    · rw [if_neg hc] at h
      cases h

theorem generateSubQuestions_ok (tools : List ToolMetadata) :
    ∀ (raw : List (String × String)) (qs : List SubQuestion),
      generateSubQuestions tools raw = .ok qs →
      ∀ q ∈ qs, q.tool_name ∈ tools.map ToolMetadata.name := by
  intro raw
  induction raw with
  | nil =>
    intro qs h
    simp only [generateSubQuestions] at h
    cases h
    simp
  | cons qt rest ih =>
    intro qs h
    obtain ⟨q0, t0⟩ := qt
    simp only [generateSubQuestions] at h
    by_cases ht : t0 ∈ tools.map ToolMetadata.name
    · rw [if_pos ht] at h
      cases hrec : generateSubQuestions tools rest with
      | ok qs0 =>
        rw [hrec] at h
        cases h
        intro q hq
        rcases List.mem_cons.mp hq with h | h
        · subst h; exact ht
        · exact ih qs0 hrec q h
      | error e => rw [hrec] at h; cases h
    · rw [if_neg ht] at h
      cases h

/-! ## Claim theorems -/

/-- C8: for every string `s`, splitting on newlines and re-joining with
newlines reconstructs `s` exactly, so the `queries_str` printed by
`generate_queries` is character-for-character the raw LLM response. -/
theorem split_join_roundtrip :
    (∀ s : String, pyJoinNl (pySplitNl s) = s) ∧
    (∀ (llmPredict : Nat → String → String) (query : String)
        (num_queries : Nat),
      generate_queries_printed llmPredict query num_queries =
        llmPredict num_queries query) := by
  refine ⟨pyJoinNl_pySplitNl, ?_⟩
  intro llmPredict query num_queries
  simp [generate_queries_printed, generate_queries, pyJoinNl_pySplitNl]

/-- C9: `generate_queries` returns exactly the newline-separated segments of
the LLM response: the list is the split of the response, it is never empty,
its length is one plus the number of newline characters in the response, it
depends on `num_queries` only through the response, and an empty response
yields `[""]`. -/
theorem generate_queries_segments (llmPredict : Nat → String → String)
    (query resp : String) (num_queries num_queries' : Nat)
    (hr : llmPredict num_queries query = resp)
    (hr' : llmPredict num_queries' query = resp) :
    generate_queries llmPredict query num_queries = pySplitNl resp ∧
    generate_queries llmPredict query num_queries ≠ [] ∧
    (generate_queries llmPredict query num_queries).length =
      resp.data.count '\n' + 1 ∧
    generate_queries llmPredict query num_queries =
      generate_queries llmPredict query num_queries' ∧
    pySplitNl "" = [""] := by
  refine ⟨?_, ?_, ?_, ?_, ?_⟩
  · simp [generate_queries, hr]
  · simp only [generate_queries, hr]
    exact pySplitNl_ne_nil resp
  · simp [generate_queries, hr, length_pySplitNl]
  · simp [generate_queries, hr, hr']
  · rfl

theorem generate_queries_segments_witness :
    (fun (_ : Nat) (_ : String) => "q1\nq2") 4 "Interleaf" = "q1\nq2" ∧
    (fun (_ : Nat) (_ : String) => "q1\nq2") 7 "Interleaf" = "q1\nq2" ∧
    (generate_queries (fun _ _ => "q1\nq2") "Interleaf" 4 =
        pySplitNl "q1\nq2" ∧
      generate_queries (fun _ _ => "q1\nq2") "Interleaf" 4 ≠ [] ∧
      (generate_queries (fun _ _ => "q1\nq2") "Interleaf" 4).length =
        ("q1\nq2" : String).data.count '\n' + 1 ∧
      generate_queries (fun _ _ => "q1\nq2") "Interleaf" 4 =
        generate_queries (fun _ _ => "q1\nq2") "Interleaf" 7 ∧
      pySplitNl "" = [""]) :=
  ⟨rfl, rfl,
    generate_queries_segments (fun _ _ => "q1\nq2") "Interleaf" "q1\nq2" 4 7
      rfl rfl⟩

/-- C10: the locally defined tool functions are pure and total: `add`
returns exactly the integer sum of its arguments, and `execute_sql` returns
exactly the string `"Executed "` concatenated with its argument. -/
theorem add_execute_sql_spec :
    (∀ a b : Int, add a b = a + b) ∧
    (∀ sql : String, execute_sql sql = "Executed " ++ sql) :=
  ⟨fun _ _ => rfl, fun _ => rfl⟩

/-- C7 counterexample: the claim that no computation is implemented by the
repository itself — that every cell only instantiates imported classes and
inspects their results — is false: `query_transform_cookbook.ipynb` itself
defines the functions `add`, `execute_sql` and `generate_queries`, and they
compute: at the concrete inputs below, `add` performs integer addition,
`execute_sql` builds a string, and `generate_queries` splits the abstracted
LLM response into two queries. -/
theorem local_functions_compute :
    add 2 3 = 5 ∧
    execute_sql "SELECT 1" = "Executed SELECT 1" ∧
    generate_queries (fun _ _ => "q1\nq2") "x" 4 = ["q1", "q2"] := by
  refine ⟨rfl, rfl, ?_⟩
  decide

/-- C7 amended: the repository implements no original engine, protocol,
scheduler, or data structure, but it does define a handful of small local
helper and mock functions whose computation is trivial: `add` is integer
addition, `execute_sql` is string concatenation, and `generate_queries`
merely splits the LLM response on newlines. -/
theorem local_functions_trivial :
    (∀ a b : Int, add a b = a + b) ∧
    (∀ sql : String, execute_sql sql = "Executed " ++ sql) ∧
    (∀ (llmPredict : Nat → String → String) (query : String)
        (num_queries : Nat),
      generate_queries llmPredict query num_queries =
        pySplitNl (llmPredict num_queries query)) :=
  ⟨fun _ _ => rfl, fun _ => rfl, fun _ _ _ => rfl⟩

/-- C5: the document loader with `filename_as_id=True` assigns deterministic
identifiers: the identifiers of the loaded documents are a function of the
filenames alone, so two invocations over the same set of files — whatever
the file contents at each invocation — produce documents with identical
identifiers. -/
theorem loader_ids_deterministic (dirPath : String)
    (files1 files2 : List (String × String))
    (h : files1.map Prod.fst = files2.map Prod.fst) :
    (loadData dirPath files1).map Document.id =
      (loadData dirPath files2).map Document.id := by
  rw [loadData_ids, loadData_ids, h]

theorem loader_ids_deterministic_witness :
    [("test1.txt", "This is a test file: one!")].map Prod.fst =
      [("test1.txt", "This is a NEW test file: one!")].map Prod.fst ∧
    (loadData "./test_redis_data"
        [("test1.txt", "This is a test file: one!")]).map Document.id =
      (loadData "./test_redis_data"
        [("test1.txt", "This is a NEW test file: one!")]).map Document.id :=
  ⟨rfl,
    loader_ids_deterministic "./test_redis_data"
      [("test1.txt", "This is a test file: one!")]
      [("test1.txt", "This is a NEW test file: one!")] rfl⟩

/-- C6: whenever `selectTools` (the selector over `n` named tools)
succeeds, every returned selection's index lies in `[0, n)` and the
multi-selector returns no more selections than its `max_outputs` limit;
whenever `generateSubQuestions` succeeds, every returned sub-question's
`tool_name` is the name of one of the supplied tools. -/
theorem selector_and_question_gen_valid (tools : List ToolMetadata)
    (maxOutputs : Nat) (rawSel : List (Nat × String))
    (res : SelectorResult) (rawSub : List (String × String))
    (qs : List SubQuestion)
    (hsel : selectTools tools maxOutputs rawSel = .ok res)
    (hgen : generateSubQuestions tools rawSub = .ok qs) :
    (∀ s ∈ res.selections, s.index < tools.length) ∧
    res.selections.length ≤ maxOutputs ∧
    (∀ q ∈ qs, q.tool_name ∈ tools.map ToolMetadata.name) := by
  simp only [selectTools] at hsel
  by_cases hlen : rawSel.length > maxOutputs
  · rw [if_pos hlen] at hsel
    cases hsel
  · rw [if_neg hlen] at hsel
    cases hparse : parseSelections tools.length rawSel with
    | ok sels =>
      rw [hparse] at hsel
      cases hsel
      obtain ⟨hl, hidx⟩ := parseSelections_ok tools.length rawSel sels hparse
      refine ⟨hidx, ?_, generateSubQuestions_ok tools rawSub qs hgen⟩
      show sels.length ≤ maxOutputs
      omega
    | error e =>
      rw [hparse] at hsel
      cases hsel

theorem selector_and_question_gen_valid_witness :
    selectTools
        [⟨"uber_2021_10k", "Uber financials 2021"⟩,
         ⟨"lyft_2021_10k", "Lyft financials 2021"⟩] 2
        [(1, "asks about Uber"), (2, "asks about Lyft")] =
      .ok ⟨[⟨0, "asks about Uber"⟩, ⟨1, "asks about Lyft"⟩]⟩ ∧
    generateSubQuestions
        [⟨"uber_2021_10k", "Uber financials 2021"⟩,
         ⟨"lyft_2021_10k", "Lyft financials 2021"⟩]
        [("What are the financials of Uber for 2021?", "uber_2021_10k")] =
      .ok [⟨"What are the financials of Uber for 2021?", "uber_2021_10k"⟩] ∧
    ((∀ s ∈ (⟨[⟨0, "asks about Uber"⟩, ⟨1, "asks about Lyft"⟩]⟩ :
          SelectorResult).selections,
        s.index < ([⟨"uber_2021_10k", "Uber financials 2021"⟩,
          ⟨"lyft_2021_10k", "Lyft financials 2021"⟩] :
            List ToolMetadata).length) ∧
      (⟨[⟨0, "asks about Uber"⟩, ⟨1, "asks about Lyft"⟩]⟩ :
          SelectorResult).selections.length ≤ 2 ∧
      (∀ q ∈ ([⟨"What are the financials of Uber for 2021?",
            "uber_2021_10k"⟩] : List SubQuestion),
        q.tool_name ∈ ([⟨"uber_2021_10k", "Uber financials 2021"⟩,
          ⟨"lyft_2021_10k", "Lyft financials 2021"⟩] :
            List ToolMetadata).map ToolMetadata.name)) :=
  ⟨rfl, rfl,
    selector_and_question_gen_valid
      [⟨"uber_2021_10k", "Uber financials 2021"⟩,
       ⟨"lyft_2021_10k", "Lyft financials 2021"⟩] 2
      [(1, "asks about Uber"), (2, "asks about Lyft")]
      ⟨[⟨0, "asks about Uber"⟩, ⟨1, "asks about Lyft"⟩]⟩
      [("What are the financials of Uber for 2021?", "uber_2021_10k")]
      [⟨"What are the financials of Uber for 2021?", "uber_2021_10k"⟩]
      rfl rfl⟩

/-- C2: re-running `pipeline.run` (UPSERTS strategy) on a document whose
content changed since the previous run makes the stores hold exactly the
nodes derived from the new content under that document's identifier — the
run returns those nodes, the vector-store nodes referring to the document
are exactly the new ones (no node from the prior content remains, since
every node derived from the document carries its identifier), and the
docstore records the new content hash. -/
theorem upserts_replaces_modified (chunk : String → List String)
    (embed : String → Int) (st : PipelineState) (d : Document)
    (oldHash : String) (hl : alookup st.docstore d.id = some oldHash)
    (hne : oldHash ≠ d.content) :
    (runUpserts chunk embed st [d]).1 = mkNodes chunk embed d ∧
    (runUpserts chunk embed st [d]).2.vectorStore.filter
        (fun n => n.ref_doc_id == d.id) = mkNodes chunk embed d ∧
    alookup (runUpserts chunk embed st [d]).2.docstore d.id =
      some d.content := by
  have hgo : ¬ alookup st.docstore d.id = some d.content := by
    rw [hl]
    intro h
    exact hne (Option.some.inj h)
  have hp := processDoc_go chunk embed st d hgo
  refine ⟨?_, ?_, ?_⟩
  · simp [runUpserts, hp]
  · simp only [runUpserts, hp, List.filter_append]
    rw [filter_keep_after_del_self, filter_keep_mkNodes, List.nil_append]
  · simp only [runUpserts, hp]
    exact alookup_aupsert_self _ _ _

theorem upserts_replaces_modified_witness :
    alookup (⟨[("test1.txt", "This is a test file: one!")], [],
        [⟨"test1.txt", "This is a test file: one!", 0⟩]⟩ :
          PipelineState).docstore "test1.txt" =
      some "This is a test file: one!" ∧
    "This is a test file: one!" ≠ "This is a NEW test file: one!" ∧
    ((runUpserts oneChunk zeroEmbed
        ⟨[("test1.txt", "This is a test file: one!")], [],
         [⟨"test1.txt", "This is a test file: one!", 0⟩]⟩
        [⟨"test1.txt", "This is a NEW test file: one!"⟩]).1 =
      mkNodes oneChunk zeroEmbed ⟨"test1.txt", "This is a NEW test file: one!"⟩ ∧
    (runUpserts oneChunk zeroEmbed
        ⟨[("test1.txt", "This is a test file: one!")], [],
         [⟨"test1.txt", "This is a test file: one!", 0⟩]⟩
        [⟨"test1.txt", "This is a NEW test file: one!"⟩]).2.vectorStore.filter
        (fun n => n.ref_doc_id == "test1.txt") =
      mkNodes oneChunk zeroEmbed ⟨"test1.txt", "This is a NEW test file: one!"⟩ ∧
    alookup (runUpserts oneChunk zeroEmbed
        ⟨[("test1.txt", "This is a test file: one!")], [],
         [⟨"test1.txt", "This is a test file: one!", 0⟩]⟩
        [⟨"test1.txt", "This is a NEW test file: one!"⟩]).2.docstore
        "test1.txt" =
      some "This is a NEW test file: one!") :=
  ⟨rfl, by decide,
    upserts_replaces_modified oneChunk zeroEmbed
      ⟨[("test1.txt", "This is a test file: one!")], [],
       [⟨"test1.txt", "This is a test file: one!", 0⟩]⟩
      ⟨"test1.txt", "This is a NEW test file: one!"⟩
      "This is a test file: one!" rfl (by decide)⟩

/-- C3: for a document unchanged between two consecutive runs of
`pipeline.run`, the second run returns no node derived from it, leaves the
vector-store nodes (and so their embeddings) referring to it exactly as
after the first run, and leaves its docstore entry unchanged.  The batches
may contain further (added or modified) documents; the hypotheses only
require that within each batch all documents carrying this identifier
carry this content. -/
theorem upserts_skips_unchanged (chunk : String → List String)
    (embed : String → Int) (st0 : PipelineState)
    (docs1 docs2 : List Document) (d : Document)
    (hd1 : d ∈ docs1) (_hd2 : d ∈ docs2)
    (hu1 : ∀ d' ∈ docs1, d'.id = d.id → d'.content = d.content)
    (hu2 : ∀ d' ∈ docs2, d'.id = d.id → d'.content = d.content) :
    (runUpserts chunk embed (runUpserts chunk embed st0 docs1).2
        docs2).1.filter (fun n => n.ref_doc_id == d.id) = [] ∧
    (runUpserts chunk embed (runUpserts chunk embed st0 docs1).2
        docs2).2.vectorStore.filter (fun n => n.ref_doc_id == d.id) =
      (runUpserts chunk embed st0 docs1).2.vectorStore.filter
        (fun n => n.ref_doc_id == d.id) ∧
    alookup (runUpserts chunk embed (runUpserts chunk embed st0 docs1).2
        docs2).2.docstore d.id =
      alookup (runUpserts chunk embed st0 docs1).2.docstore d.id := by
  have hentry : alookup (runUpserts chunk embed st0 docs1).2.docstore d.id =
      some d.content :=
    runUpserts_sets_entry chunk embed d.id d.content docs1 st0 hu1
      ⟨d, hd1, rfl⟩
  obtain ⟨ho, hv, hl⟩ :=
    runUpserts_frame chunk embed d.id d.content docs2 _ hentry hu2
  exact ⟨ho, hv, by rw [hl, hentry]⟩

theorem upserts_skips_unchanged_witness :
    (⟨"test2.txt", "two"⟩ : Document) ∈
      [(⟨"test1.txt", "one"⟩ : Document), ⟨"test2.txt", "two"⟩] ∧
    (⟨"test2.txt", "two"⟩ : Document) ∈
      [(⟨"test1.txt", "one NEW"⟩ : Document), ⟨"test2.txt", "two"⟩,
       ⟨"test3.txt", "three"⟩] ∧
    (∀ d' ∈ [(⟨"test1.txt", "one"⟩ : Document), ⟨"test2.txt", "two"⟩],
      d'.id = "test2.txt" → d'.content = "two") ∧
    (∀ d' ∈ [(⟨"test1.txt", "one NEW"⟩ : Document), ⟨"test2.txt", "two"⟩,
        ⟨"test3.txt", "three"⟩],
      d'.id = "test2.txt" → d'.content = "two") ∧
    ((runUpserts oneChunk zeroEmbed
        (runUpserts oneChunk zeroEmbed emptyState
          [⟨"test1.txt", "one"⟩, ⟨"test2.txt", "two"⟩]).2
        [⟨"test1.txt", "one NEW"⟩, ⟨"test2.txt", "two"⟩,
         ⟨"test3.txt", "three"⟩]).1.filter
        (fun n => n.ref_doc_id == "test2.txt") = [] ∧
    (runUpserts oneChunk zeroEmbed
        (runUpserts oneChunk zeroEmbed emptyState
          [⟨"test1.txt", "one"⟩, ⟨"test2.txt", "two"⟩]).2
        [⟨"test1.txt", "one NEW"⟩, ⟨"test2.txt", "two"⟩,
         ⟨"test3.txt", "three"⟩]).2.vectorStore.filter
        (fun n => n.ref_doc_id == "test2.txt") =
      (runUpserts oneChunk zeroEmbed emptyState
        [⟨"test1.txt", "one"⟩, ⟨"test2.txt", "two"⟩]).2.vectorStore.filter
        (fun n => n.ref_doc_id == "test2.txt") ∧
    alookup (runUpserts oneChunk zeroEmbed
        (runUpserts oneChunk zeroEmbed emptyState
          [⟨"test1.txt", "one"⟩, ⟨"test2.txt", "two"⟩]).2
        [⟨"test1.txt", "one NEW"⟩, ⟨"test2.txt", "two"⟩,
         ⟨"test3.txt", "three"⟩]).2.docstore "test2.txt" =
      alookup (runUpserts oneChunk zeroEmbed emptyState
        [⟨"test1.txt", "one"⟩, ⟨"test2.txt", "two"⟩]).2.docstore
        "test2.txt") :=
  ⟨by decide, by decide, by decide, by decide,
    upserts_skips_unchanged oneChunk zeroEmbed emptyState
      [⟨"test1.txt", "one"⟩, ⟨"test2.txt", "two"⟩]
      [⟨"test1.txt", "one NEW"⟩, ⟨"test2.txt", "two"⟩,
       ⟨"test3.txt", "three"⟩]
      ⟨"test2.txt", "two"⟩ (by decide) (by decide) (by decide) (by decide)⟩

/-- C4 counterexample: `pipeline.run` is not idempotent on every unchanged
document set.  The two-element batch below carries the same identifier
twice with different contents; after a first run from the empty state, a
second run with the identical batch re-ingests the first document (its
docstore hash was overwritten by the second), so the returned node list is
not empty. -/
theorem rerun_not_idempotent_duplicate_ids :
    (runUpserts oneChunk zeroEmbed
        (runUpserts oneChunk zeroEmbed emptyState
          [⟨"a", "x"⟩, ⟨"a", "y"⟩]).2
        [⟨"a", "x"⟩, ⟨"a", "y"⟩]).1 ≠ [] := by
  decide

/-- C4 amended: `pipeline.run` is idempotent on unchanged input whose
documents carry pairwise distinct identifiers: re-running the pipeline on
the identical batch returns an empty node list and leaves the docstore,
cache, and vector store exactly in the state left by the first run. -/
theorem rerun_idempotent_nodup (chunk : String → List String)
    (embed : String → Int) (st0 : PipelineState) (docs : List Document)
    (hnd : (docs.map Document.id).Nodup) :
    runUpserts chunk embed (runUpserts chunk embed st0 docs).2 docs =
      ([], (runUpserts chunk embed st0 docs).2) := by
  apply runUpserts_skip_all
  intro d hd
  have hu : ∀ d' ∈ docs, d'.id = d.id → d'.content = d.content := by
    intro d' hd' hid
    have : d' = d := List.inj_on_of_nodup_map hnd hd' hd hid
    rw [this]
  exact runUpserts_sets_entry chunk embed d.id d.content docs st0 hu
    ⟨d, hd, rfl⟩

theorem rerun_idempotent_nodup_witness :
    (([(⟨"test1.txt", "one"⟩ : Document), ⟨"test2.txt", "two"⟩]).map
        Document.id).Nodup ∧
    runUpserts oneChunk zeroEmbed
        (runUpserts oneChunk zeroEmbed emptyState
          [⟨"test1.txt", "one"⟩, ⟨"test2.txt", "two"⟩]).2
        [⟨"test1.txt", "one"⟩, ⟨"test2.txt", "two"⟩] =
      ([], (runUpserts oneChunk zeroEmbed emptyState
        [⟨"test1.txt", "one"⟩, ⟨"test2.txt", "two"⟩]).2) :=
  ⟨by decide,
    rerun_idempotent_nodup oneChunk zeroEmbed emptyState
      [⟨"test1.txt", "one"⟩, ⟨"test2.txt", "two"⟩] (by decide)⟩

/-- C1: re-running the ingestion pipeline (UPSERTS strategy with docstore,
cache and vector store) against a directory holding one modified file, one
unmodified file, and one newly added file leaves exactly three indexed
nodes in the vector store backing the index — not five — when, as in the
notebook, each file produces one node.  `ida`/`idb` are the identifiers of
the two original files (contents `a` and `b`), the second run sees the
modified content `a'` for `ida`, the unchanged `b` for `idb`, and the new
file `idc` with content `c`. -/
theorem upserts_three_nodes_after_rerun (embed : String → Int)
    (ida idb idc a b a' c : String) (hab : ida ≠ idb) (hac : ida ≠ idc)
    (hbc : idb ≠ idc) (hmod : a' ≠ a) :
    ((runUpserts oneChunk embed
        (runUpserts oneChunk embed emptyState
          [⟨ida, a⟩, ⟨idb, b⟩]).2
        [⟨ida, a'⟩, ⟨idb, b⟩, ⟨idc, c⟩]).2).vectorStore.length = 3 := by
  simp [runUpserts, processDoc, emptyState, alookup, aupsert, mkNodes,
    oneChunk, hab, hac, hbc, Ne.symm hmod, Ne.symm hab, Ne.symm hac,
    Ne.symm hbc, List.filter, bne_iff_ne.mpr hab, bne_iff_ne.mpr hac,
    bne_iff_ne.mpr hbc, bne_iff_ne.mpr (Ne.symm hab),
    bne_iff_ne.mpr (Ne.symm hac), bne_iff_ne.mpr (Ne.symm hbc),
    bne_self_eq_false]

theorem upserts_three_nodes_after_rerun_witness :
    ("test1.txt" : String) ≠ "test2.txt" ∧
    ("test1.txt" : String) ≠ "test3.txt" ∧
    ("test2.txt" : String) ≠ "test3.txt" ∧
    ("This is a NEW test file: one!" : String) ≠
      "This is a test file: one!" ∧
    ((runUpserts oneChunk zeroEmbed
        (runUpserts oneChunk zeroEmbed emptyState
          [⟨"test1.txt", "This is a test file: one!"⟩,
           ⟨"test2.txt", "This is a test file: two!"⟩]).2
        [⟨"test1.txt", "This is a NEW test file: one!"⟩,
         ⟨"test2.txt", "This is a test file: two!"⟩,
         ⟨"test3.txt", "This is a test file: three!"⟩]).2).vectorStore.length
      = 3 :=
  ⟨by decide, by decide, by decide, by decide,
    upserts_three_nodes_after_rerun zeroEmbed "test1.txt" "test2.txt"
      "test3.txt" "This is a test file: one!" "This is a test file: two!"
      "This is a NEW test file: one!" "This is a test file: three!"
      (by decide) (by decide) (by decide) (by decide)⟩

end LlamaNb
